import Mathlib

/-!
Shallow embedding of `src/pdf_merger/pdf_merger.py` (the pdf_merger
repository) together with proofs about its ordering-and-assembly pipeline:
filename-to-index extraction, the two sort strategies, the merge plan, and
the page-offset bookkeeping for bookmarks.

Python strings are modelled as Lean `String` (Python slicing by code point
matches `String.drop`/`String.take` on characters).  Python exceptions are
modelled with `Except PyErr`.  The external PDF library (PyPDF2) is
modelled as a function from a path to `Option Nat`: `some n` means the
file at that path is readable and contributes `n` pages when appended,
`none` means `merger.append` raises on that path.
-/

set_option autoImplicit false

deriving instance DecidableEq for Except

/-- Python exceptions that the modelled code can raise. -/
inductive PyErr where
  | valueError (msg : String)
  | indexError
  | typeError
deriving DecidableEq, Repr

/-- Result of a successful `re.search`: the list of capture groups, where
entry `i` models `match.group(i+1)`; `none` models a group that did not
participate in the match. -/
structure ReMatch where
  groups : List (Option String)
deriving DecidableEq, Repr

/-- Abstract model of a compiled regular expression: `search s` models
`re.search(pattern, s)`, returning the first match (with its capture
groups) or `none` when the pattern matches nowhere in `s`. -/
structure RePattern where
  search : String → Option ReMatch

/-- Base-10 value of a list of decimal digit characters. -/
def parseDigits (l : List Char) : Nat :=
  l.foldl (fun a c => a * 10 + (c.toNat - 48)) 0

/-- Model of the Python builtin `int(s)` on the strings this program feeds
it (regex captures from filenames): a nonempty string of ASCII decimal
digits, with an optional single leading sign, parses in base 10; anything
else raises `ValueError`. -/
def pyInt (s : String) : Except PyErr Int :=
  match s.data with
  | [] => .error (.valueError ("invalid literal for int() with base 10: " ++ s))
  | c :: cs =>
    if c = '-' then
      if cs ≠ [] ∧ cs.all Char.isDigit then .ok (-(parseDigits cs : Int))
      else .error (.valueError ("invalid literal for int() with base 10: " ++ s))
    else if c = '+' then
      if cs ≠ [] ∧ cs.all Char.isDigit then .ok (parseDigits cs : Int)
      else .error (.valueError ("invalid literal for int() with base 10: " ++ s))
    else if (c :: cs).all Char.isDigit then .ok (parseDigits (c :: cs) : Int)
    else .error (.valueError ("invalid literal for int() with base 10: " ++ s))

/-- Model of `match.group(1)` followed by `int(...)`: `group(1)` raises
`IndexError` when the pattern has no capture group, `int(None)` raises
`TypeError` for a non-participating group. -/
def groupOneInt (m : ReMatch) : Except PyErr Int :=
  match m.groups.get? 0 with
  | none => .error .indexError
  | some none => .error .typeError
  | some (some g) => pyInt g

/-- Model of Python `filename.startswith(pre)` by code points; agrees with
`String.startsWith`. -/
def pyStartsWith (s pre : String) : Bool :=
  pre.data.isPrefixOf s.data

/-- Model of the Python slice `s[n:]` by code points; agrees with
`String.drop`. -/
def pyDrop (s : String) (n : Nat) : String :=
  ⟨s.data.drop n⟩

/-- Embedding of `extract_index_from_filename(filename, prefix, index_pattern)`:
strips `pre` from the front of `filename` when present, searches the
remainder with the pattern, and parses capture group 1 as an integer;
returns `none` (Python `None`, "no key") when the pattern does not match. -/
def extract_index_from_filename (filename : String) (pre : String)
    (index_pattern : RePattern) : Except PyErr (Option Int) :=
  let clean_name := if pyStartsWith filename pre then pyDrop filename pre.length else filename
  match index_pattern.search clean_name with
  | none => .ok none
  | some m => (groupOneInt m).map (fun n => some n)

/-- Leftmost maximal run of decimal digits in a character list, if any. -/
def digitRun : List Char → Option (List Char)
  | [] => none
  | c :: cs => if c.isDigit then some (c :: cs.takeWhile Char.isDigit) else digitRun cs

/-- Embedding of the default index pattern `(\d+)`: `re.search` finds the
leftmost run of one-or-more decimal digits and captures it as group 1. -/
def defaultPattern : RePattern :=
  { search := fun s => (digitRun s.data).map (fun r => ⟨[some (String.mk r)]⟩) }

/-- One assignment `d[k] = v` on a Python dict represented as an insertion
ordered association list: an existing key keeps its position and gets the
new value, a new key is appended at the end. -/
def dictInsert (d : List (String × Int)) (k : String) (v : Int) : List (String × Int) :=
  if d.any (fun p => p.1 == k) then d.map (fun p => if p.1 == k then (p.1, v) else p)
  else d ++ [(k, v)]

/-- Python dict built by inserting the given (key, value) pairs in order
into an initially empty dict. -/
def pyDict (ps : List (String × Int)) : List (String × Int) :=
  ps.foldl (fun d p => dictInsert d p.1 p.2) []

/-- Stable insertion of a pair into a list sorted by second component. -/
def insertByKey (x : String × Int) : List (String × Int) → List (String × Int)
  | [] => [x]
  | y :: ys => if x.2 ≤ y.2 then x :: y :: ys else y :: insertByKey x ys

/-- Embedding of `sorted(items, key=lambda x: x[1])`: the stable sort of
the pairs by their second component (stable sorts agree extensionally, so
insertion sort models Python sorted exactly). -/
def sortByKey : List (String × Int) → List (String × Int)
  | [] => []
  | x :: xs => insertByKey x (sortByKey xs)

/-- Loop body of `get_sorted_pdfs_by_index`: runs the extractor over every
file in order, collecting the (file, index) pairs of keyed files and, in a
second component, the files that produced the "no index found" warning.
An extractor exception propagates. -/
def collectIndices (pre : String) (pat : RePattern) :
    List String → Except PyErr (List (String × Int) × List String)
  | [] => .ok ([], [])
  | f :: fs =>
    match extract_index_from_filename f pre pat with
    | .error e => .error e
    | .ok none => (collectIndices pre pat fs).map (fun r => (r.1, f :: r.2))
    | .ok (some i) => (collectIndices pre pat fs).map (fun r => ((f, i) :: r.1, r.2))

/-- Embedding of `get_sorted_pdfs_by_index(pdf_files, prefix, index_pattern)`:
keyed files go through the `pdf_with_indices` dict and are sorted by index;
the second component lists the skipped (warned-about) files in order. -/
def get_sorted_pdfs_by_index (pdf_files : List String) (pre : String)
    (pat : RePattern) : Except PyErr (List (String × Int) × List String) :=
  (collectIndices pre pat pdf_files).map (fun r => (sortByKey (pyDict r.1), r.2))

/-- Message of the `ValueError` raised by `get_sorted_pdfs_by_order` on a
length mismatch. -/
def orderCountMismatchMsg : String :=
  "The number of files does not match the number of custom order positions."

/-- Embedding of `get_sorted_pdfs_by_order(pdf_files, custom_order)`:
raises `ValueError` when the counts differ, otherwise zips files with
their order values through the `pdf_with_order` dict and sorts by value. -/
def get_sorted_pdfs_by_order (pdf_files : List String) (custom_order : List Int) :
    Except PyErr (List (String × Int)) :=
  if pdf_files.length ≠ custom_order.length then
    .error (.valueError orderCountMismatchMsg)
  else
    .ok (sortByKey (pyDict (pdf_files.zip custom_order)))

/-- Model of `str(Path(input_folder) / pdf_file)` for the bare filenames
this program joins (names from a directory listing, never absolute). -/
def pathJoin (input_folder pdf_file : String) : String :=
  input_folder ++ "/" ++ pdf_file

/-- Index of the last occurrence of `c` in `l`, if any (Python `rfind`). -/
def lastIdxOf (c : Char) : List Char → Option Nat
  | [] => none
  | x :: xs =>
    match lastIdxOf c xs with
    | some i => some (i + 1)
    | none => if x = c then some 0 else none

/-- Model of `pathlib.PurePath.stem` on a final path component: with
`i = name.rfind(".")`, the stem is `name[:i]` when `0 < i < len(name) - 1`
and the whole name otherwise. -/
def pathStem (name : String) : String :=
  match lastIdxOf '.' name.data with
  | some i => if 0 < i ∧ i < name.data.length - 1 then ⟨name.data.take i⟩ else name
  | none => name

/-- Embedding of the title choice in `merge_pdfs`:
`custom_titles[idx] if custom_titles and idx < len(custom_titles) else pdf_path.stem`
(a `None` or empty title list is falsy in Python). -/
def resolveTitle (custom_titles : Option (List String)) (idx : Nat) (pdf_file : String) : String :=
  match custom_titles with
  | some ts => if ts ≠ [] ∧ idx < ts.length then ts.getD idx "" else pathStem pdf_file
  | none => pathStem pdf_file

/-- Modelled from the spec: the bookmark title contract of §4.3 / TitleMap —
the title for plan position `i` is `TitleMap[i]` if a title list is present
and `i` is in range, else the file's base name with extension stripped. -/
def resolveTitleSpec (titleMap : Option (List String)) (i : Nat) (pdf_file : String) : String :=
  match titleMap with
  | some ts =>
    match ts.get? i with
    | some t => t
    | none => pathStem pdf_file
  | none => pathStem pdf_file

/-- Filesystem-visible events of the assembler, in the order the Python
code performs them: a `merger.append(path)` call, the `open(output_file)`
call, and the `merger.write` into the opened output file. -/
inductive FsEvent where
  | append (path : String)
  | openOutput (path : String)
  | writeOutput (path : String)
deriving DecidableEq, Repr

/-- State produced by the `for` loop of `merge_pdfs`: the trace of append
calls, the bookmarks added (title, 0-based page offset) in order, the page
counts reported by the library for each appended file, and whether the
loop ran to completion (`false` means an append raised and aborted it). -/
structure LoopResult where
  trace : List FsEvent
  bookmarks : List (String × Nat)
  pageCounts : List Nat
  ok : Bool
deriving DecidableEq, Repr

/-- Embedding of the loop body of `merge_pdfs`: for each plan entry it
appends the file (aborting when the library raises), adds a bookmark at
`current_page`, and advances `current_page` by the page count the library
reports for the file just appended (`merger.pages[-1].numPages`). -/
def mergeLoop (lib : String → Option Nat) (input_folder : String)
    (custom_titles : Option (List String)) :
    List (String × Int) → Nat → Nat → LoopResult
  | [], _, _ => ⟨[], [], [], true⟩
  | (pdf_file, _) :: rest, idx, current_page =>
    let pdf_path := pathJoin input_folder pdf_file
    match lib pdf_path with
    | none => ⟨[.append pdf_path], [], [], false⟩
    | some n =>
      let r := mergeLoop lib input_folder custom_titles rest (idx + 1) (current_page + n)
      ⟨.append pdf_path :: r.trace,
       (resolveTitle custom_titles idx pdf_file, current_page) :: r.bookmarks,
       n :: r.pageCounts,
       r.ok⟩

/-- Outcome of `merge_pdfs`: `written = some pageCounts` exactly when the
loop completed and the output file was opened and written; on an append
failure the exception propagates before `open(output_file, "wb")`, so
`written = none` and the trace holds only the append calls made. -/
structure MergeResult where
  trace : List FsEvent
  bookmarks : List (String × Nat)
  written : Option (List Nat)
deriving DecidableEq, Repr

/-- Embedding of `merge_pdfs(input_folder, output_file, sorted_pdfs, custom_titles)`. -/
def merge_pdfs (lib : String → Option Nat) (input_folder output_file : String)
    (sorted_pdfs : List (String × Int)) (custom_titles : Option (List String)) : MergeResult :=
  let r := mergeLoop lib input_folder custom_titles sorted_pdfs 0 0
  if r.ok then
    ⟨r.trace ++ [.openOutput output_file, .writeOutput output_file],
     r.bookmarks, some r.pageCounts⟩
  else
    ⟨r.trace, r.bookmarks, none⟩

/-- Terminal outcomes of `main` that are not Python exceptions. -/
inductive MainOutcome where
  | noInputFiles
  | noValidEntries
  | userAborted
  | merged (r : MergeResult)
deriving DecidableEq, Repr

/-- Result of one `main` run: the returned outcome or propagated
exception, and the filesystem trace (nonempty only when `merge_pdfs` ran). -/
structure MainResult where
  result : Except PyErr MainOutcome
  trace : List FsEvent
deriving DecidableEq, Repr

/-- Embedding of `main()` after argument parsing: `pdf_files` stands for
the `list_pdf_files` listing, `custom_order` for the parsed
`--custom_order` list (`none` when the flag is absent), `custom_titles`
for the split `--custom_titles` list, and `userConfirms` for the
interactive answer read by `confirm_merge`. -/
def pyMain (lib : String → Option Nat) (input_folder output_file : String)
    (pdf_files : List String) (pre : String) (pat : RePattern)
    (custom_titles : Option (List String)) (custom_order : Option (List Int))
    (force_merge userConfirms : Bool) : MainResult :=
  if pdf_files.isEmpty then ⟨.ok .noInputFiles, []⟩
  else
    let plannedE : Except PyErr (List (String × Int)) :=
      match custom_order with
      | some ord => get_sorted_pdfs_by_order pdf_files ord
      | none => (get_sorted_pdfs_by_index pdf_files pre pat).map (fun r => r.1)
    match plannedE with
    | .error e => ⟨.error e, []⟩
    | .ok sorted_pdfs =>
      if sorted_pdfs.isEmpty then ⟨.ok .noValidEntries, []⟩
      else if ¬force_merge ∧ ¬userConfirms then ⟨.ok .userAborted, []⟩
      else
        let r := merge_pdfs lib input_folder output_file sorted_pdfs custom_titles
        ⟨.ok (.merged r), r.trace⟩

/-- Page count the modelled library reports for a plan entry. -/
def pageCount (lib : String → Option Nat) (input_folder : String)
    (e : String × Int) : Nat :=
  (lib (pathJoin input_folder e.1)).getD 0

/-- Keyed (file, index) pairs of a listing in listing order: the contents
of the `pdf_with_indices` dict before deduplication. -/
def keyedPairs (pre : String) (pat : RePattern) (files : List String) :
    List (String × Int) :=
  files.filterMap (fun f =>
    match extract_index_from_filename f pre pat with
    | .ok (some i) => some (f, i)
    | _ => none)

/-- Scratch library for concrete checks: a.pdf has 3 pages, b.pdf 5,
c.pdf 2, everything else is unreadable. -/
def libEx : String → Option Nat := fun p =>
  if p = "in/a.pdf" then some 3 else if p = "in/b.pdf" then some 5
  else if p = "in/c.pdf" then some 2 else none

/-- Scratch merge plan over `libEx`. -/
def planEx : List (String × Int) := [("a.pdf", 1), ("b.pdf", 2), ("c.pdf", 3)]

/-- Scratch merge plan whose second entry is unreadable under `libEx`. -/
def planFailEx : List (String × Int) := [("a.pdf", 1), ("x.pdf", 2)]

/-- Model of the pattern `re.compile("a")`: it matches any name containing
the character a and has zero capture groups. -/
def matchA : RePattern :=
  ⟨fun s => if s.data.contains 'a' then some ⟨[]⟩ else none⟩

example : pyInt "007" = .ok 7 := by decide
example : pathStem "a.b.pdf" = "a.b" := by decide
example : pathStem ".pdf" = ".pdf" := by decide
example :
    merge_pdfs libEx "in" "out.pdf" planEx none
      = ⟨[.append "in/a.pdf", .append "in/b.pdf", .append "in/c.pdf",
          .openOutput "out.pdf", .writeOutput "out.pdf"],
         [("a", 0), ("b", 3), ("c", 8)], some [3, 5, 2]⟩ := by decide
example :
    merge_pdfs libEx "in" "out.pdf" [("a.pdf", 1), ("x.pdf", 2), ("c.pdf", 3)]
        (some ["T1", "T2", "T3"])
      = ⟨[.append "in/a.pdf", .append "in/x.pdf"], [("T1", 0)], none⟩ := by decide
example : extract_index_from_filename "doc_10.pdf" "doc_" defaultPattern = .ok (some 10) := by decide
example : extract_index_from_filename "nodigits.pdf" "doc_" defaultPattern = .ok none := by decide
example :
    get_sorted_pdfs_by_index ["doc_2.pdf", "doc_10.pdf", "doc_1.pdf"] "doc_" defaultPattern
      = .ok ([("doc_1.pdf", 1), ("doc_2.pdf", 2), ("doc_10.pdf", 10)], []) := by decide
example :
    get_sorted_pdfs_by_order ["f1.pdf", "f2.pdf", "f3.pdf"] [3, 1, 2]
      = .ok [("f2.pdf", 1), ("f3.pdf", 2), ("f1.pdf", 3)] := by decide
example :
    get_sorted_pdfs_by_order ["f1.pdf", "f2.pdf", "f3.pdf"] [3, 1]
      = .error (.valueError orderCountMismatchMsg) := by decide

section SortLemmas

theorem mem_insertByKey {z x : String × Int} {l : List (String × Int)} :
    z ∈ insertByKey x l ↔ z = x ∨ z ∈ l := by
  induction l with
  | nil => simp [insertByKey]
  | cons y ys ih =>
    by_cases h : x.2 ≤ y.2
    · simp [insertByKey, h]
    · simp [insertByKey, h, ih]
      tauto

theorem insertByKey_pairwise {x : String × Int} {l : List (String × Int)}
    (hl : l.Pairwise (fun a b => a.2 ≤ b.2)) :
    (insertByKey x l).Pairwise (fun a b => a.2 ≤ b.2) := by
  induction l with
  | nil => simp [insertByKey]
  | cons y ys ih =>
    rcases List.pairwise_cons.mp hl with ⟨hy, hys⟩
    by_cases h : x.2 ≤ y.2
    · rw [insertByKey, if_pos h]
      refine List.pairwise_cons.mpr ⟨?_, hl⟩
      intro z hz
      rcases List.mem_cons.mp hz with rfl | hz
      · exact h
      · exact le_trans h (hy z hz)
    · rw [insertByKey, if_neg h]
      refine List.pairwise_cons.mpr ⟨?_, ih hys⟩
      intro z hz
      rcases mem_insertByKey.mp hz with rfl | hz
      · exact le_of_not_le h
      · exact hy z hz

theorem sortByKey_pairwise (l : List (String × Int)) :
    (sortByKey l).Pairwise (fun a b => a.2 ≤ b.2) := by
  induction l with
  | nil => exact List.Pairwise.nil
  | cons x xs ih => exact insertByKey_pairwise ih

theorem insertByKey_perm (x : String × Int) (l : List (String × Int)) :
    List.Perm (insertByKey x l) (x :: l) := by
  induction l with
  | nil => rfl
  | cons y ys ih =>
    by_cases h : x.2 ≤ y.2
    · rw [insertByKey, if_pos h]
    · rw [insertByKey, if_neg h]
      exact (ih.cons y).trans (List.Perm.swap x y ys)

theorem sortByKey_perm (l : List (String × Int)) : List.Perm (sortByKey l) l := by
  induction l with
  | nil => rfl
  | cons x xs ih => exact (insertByKey_perm x (sortByKey xs)).trans (ih.cons x)

theorem insertByKey_filter (k : Int) (x : String × Int) (l : List (String × Int)) :
    (insertByKey x l).filter (fun q => q.2 == k)
      = (x :: l).filter (fun q => q.2 == k) := by
  induction l with
  | nil => rfl
  | cons y ys ih =>
    by_cases h : x.2 ≤ y.2
    · rw [insertByKey, if_pos h]
    · rw [insertByKey, if_neg h]
      by_cases hx : x.2 = k
      · have hy : ¬y.2 = k := fun hyk => h (le_of_eq (hx.trans hyk.symm))
        simp [List.filter_cons, hx, hy, ih]
      · simp [List.filter_cons, hx, ih]

theorem sortByKey_filter (k : Int) (l : List (String × Int)) :
    (sortByKey l).filter (fun q => q.2 == k) = l.filter (fun q => q.2 == k) := by
  induction l with
  | nil => rfl
  | cons x xs ih =>
    rw [sortByKey, insertByKey_filter, List.filter_cons, List.filter_cons, ih]

end SortLemmas

section DictLemmas

theorem dictInsert_of_not_mem {d : List (String × Int)} {k : String} (v : Int)
    (h : k ∉ d.map Prod.fst) : dictInsert d k v = d ++ [(k, v)] := by
  rw [dictInsert, if_neg]
  intro hc
  rcases List.any_eq_true.mp hc with ⟨p, hp, hpk⟩
  exact h (List.mem_map.mpr ⟨p, hp, beq_iff_eq.mp hpk⟩)

theorem foldl_dictInsert_eq (ps : List (String × Int)) :
    ∀ d : List (String × Int), ((d ++ ps).map Prod.fst).Nodup →
      ps.foldl (fun d p => dictInsert d p.1 p.2) d = d ++ ps := by
  induction ps with
  | nil => intro d _; simp
  | cons p ps ih =>
    intro d hnd
    have hk : p.1 ∉ d.map Prod.fst := by
      rw [List.map_append] at hnd
      rcases List.nodup_append.mp hnd with ⟨-, -, hdisj⟩
      intro hmem
      exact hdisj hmem (by simp)
    rw [List.foldl_cons, dictInsert_of_not_mem _ hk,
      ih (d ++ [p]) (by simpa using hnd)]
    simp

theorem pyDict_eq_self {ps : List (String × Int)} (h : (ps.map Prod.fst).Nodup) :
    pyDict ps = ps := by
  simpa using foldl_dictInsert_eq ps [] (by simpa using h)

theorem dictInsert_fst_mem {d : List (String × Int)} {k : String} {v : Int} {q : String} :
    q ∈ (dictInsert d k v).map Prod.fst → q ∈ d.map Prod.fst ∨ q = k := by
  rw [dictInsert]
  by_cases hc : d.any (fun p => p.1 == k)
  · rw [if_pos hc]
    intro hq
    left
    rw [List.map_map] at hq
    have hcomp :
        (Prod.fst ∘ fun p : String × Int => if p.1 == k then (p.1, v) else p) = Prod.fst := by
      funext p
      by_cases hpk : p.1 = k <;> simp [hpk]
    rwa [hcomp] at hq
  · rw [if_neg hc]
    intro hq
    simp only [List.map_append, List.mem_append] at hq
    rcases hq with hq | hq
    · exact Or.inl hq
    · right
      simpa using hq

theorem pyDict_fst_subset {ps : List (String × Int)} {q : String} :
    q ∈ (pyDict ps).map Prod.fst → q ∈ ps.map Prod.fst := by
  have main : ∀ (ps d : List (String × Int)),
      q ∈ ((ps.foldl (fun d p => dictInsert d p.1 p.2) d).map Prod.fst) →
        q ∈ d.map Prod.fst ∨ q ∈ ps.map Prod.fst := by
    intro ps
    induction ps with
    | nil => intro d h; exact Or.inl h
    | cons p ps ih =>
      intro d h
      rcases ih (dictInsert d p.1 p.2) h with h1 | h1
      · rcases dictInsert_fst_mem h1 with h2 | h2
        · exact Or.inl h2
        · exact Or.inr (by simp [h2])
      · exact Or.inr (by simp [h1])
  intro h
  rcases main ps [] h with h1 | h1
  · simp at h1
  · exact h1

end DictLemmas

section PlannerLemmas

theorem collectIndices_eq {pre : String} {pat : RePattern} :
    ∀ {files : List String} {r},
      collectIndices pre pat files = .ok r →
      r.1 = keyedPairs pre pat files ∧
      r.2 = files.filter
        (fun f => extract_index_from_filename f pre pat == Except.ok none) := by
  intro files
  induction files with
  | nil =>
    intro r h
    simp only [collectIndices] at h
    cases h
    simp [keyedPairs]
  | cons f fs ih =>
    intro r h
    simp only [collectIndices] at h
    cases hx : extract_index_from_filename f pre pat with
    | error e => rw [hx] at h; cases h
    | ok v =>
      cases v with
      | none =>
        rw [hx] at h
        cases hc : collectIndices pre pat fs with
        | error e => rw [hc] at h; cases h
        | ok r0 =>
          rw [hc] at h
          simp only [Except.map, Except.ok.injEq] at h
          rcases ih hc with ⟨h1, h2⟩
          subst h
          constructor
          · simp [keyedPairs, hx, h1, List.filterMap_cons]
          · simp [List.filter_cons, hx, h2]
      | some i =>
        rw [hx] at h
        cases hc : collectIndices pre pat fs with
        | error e => rw [hc] at h; cases h
        | ok r0 =>
          rw [hc] at h
          simp only [Except.map, Except.ok.injEq] at h
          rcases ih hc with ⟨h1, h2⟩
          subst h
          constructor
          · simp [keyedPairs, hx, h1, List.filterMap_cons]
          · simp [List.filter_cons, hx, h2]

theorem keyedPairs_fst_sublist (pre : String) (pat : RePattern) :
    ∀ files : List String, ((keyedPairs pre pat files).map Prod.fst).Sublist files := by
  intro files
  induction files with
  | nil => simp [keyedPairs]
  | cons f fs ih =>
    simp only [keyedPairs, List.filterMap_cons]
    cases hx : extract_index_from_filename f pre pat with
    | error e => exact List.Sublist.cons f ih
    | ok v =>
      cases v with
      | none => exact List.Sublist.cons f ih
      | some i => exact List.Sublist.cons₂ f ih

theorem keyedPairs_mem {pre : String} {pat : RePattern} {files : List String}
    {f : String} {i : Int} (h : (f, i) ∈ keyedPairs pre pat files) :
    extract_index_from_filename f pre pat = .ok (some i) ∧ f ∈ files := by
  rcases List.mem_filterMap.mp h with ⟨a, ha, hfa⟩
  cases hx : extract_index_from_filename a pre pat with
  | error e => rw [hx] at hfa; cases hfa
  | ok v =>
    cases v with
    | none => rw [hx] at hfa; cases hfa
    | some j =>
      rw [hx] at hfa
      cases hfa
      exact ⟨hx, ha⟩

theorem keyedPairs_fst_of_all {pre : String} {pat : RePattern} {files : List String}
    (h : ∀ f ∈ files, ∃ k, extract_index_from_filename f pre pat = .ok (some k)) :
    (keyedPairs pre pat files).map Prod.fst = files := by
  induction files with
  | nil => simp [keyedPairs]
  | cons f fs ih =>
    rcases h f (by simp) with ⟨k, hk⟩
    simp only [keyedPairs, List.filterMap_cons, hk]
    simpa [keyedPairs] using ih (fun g hg => h g (by simp [hg]))

end PlannerLemmas

section AssemblerLemmas

theorem mergeLoop_ok_iff {lib : String → Option Nat} {folder : String}
    {ts : Option (List String)} :
    ∀ (plan : List (String × Int)) (idx cp : Nat),
      (mergeLoop lib folder ts plan idx cp).ok = true ↔
        ∀ e ∈ plan, (lib (pathJoin folder e.1)).isSome := by
  intro plan
  induction plan with
  | nil => intro idx cp; simp [mergeLoop]
  | cons e rest ih =>
    intro idx cp
    obtain ⟨f, k⟩ := e
    cases hl : lib (pathJoin folder f) with
    | none => simp [mergeLoop, hl]
    | some n => simp [mergeLoop, hl, ih]

theorem mergeLoop_trace_append_only {lib : String → Option Nat} {folder : String}
    {ts : Option (List String)} :
    ∀ (plan : List (String × Int)) (idx cp : Nat) (ev : FsEvent),
      ev ∈ (mergeLoop lib folder ts plan idx cp).trace → ∃ p, ev = .append p := by
  intro plan
  induction plan with
  | nil => intro idx cp ev h; simp [mergeLoop] at h
  | cons e rest ih =>
    intro idx cp ev h
    obtain ⟨f, k⟩ := e
    cases hl : lib (pathJoin folder f) with
    | none =>
      simp [mergeLoop, hl] at h
      exact ⟨_, h⟩
    | some n =>
      simp [mergeLoop, hl] at h
      rcases h with h | h
      · exact ⟨_, h⟩
      · exact ih (idx + 1) (cp + n) ev h

theorem mergeLoop_trace_of_ok {lib : String → Option Nat} {folder : String}
    {ts : Option (List String)} :
    ∀ (plan : List (String × Int)) (idx cp : Nat),
      (∀ e ∈ plan, (lib (pathJoin folder e.1)).isSome) →
      (mergeLoop lib folder ts plan idx cp).trace
        = plan.map (fun e => FsEvent.append (pathJoin folder e.1)) := by
  intro plan
  induction plan with
  | nil => intro idx cp _; simp [mergeLoop]
  | cons e rest ih =>
    intro idx cp hread
    obtain ⟨f, k⟩ := e
    have h0 : (lib (pathJoin folder f)).isSome := hread (f, k) (by simp)
    rcases Option.isSome_iff_exists.mp h0 with ⟨n, hn⟩
    simp [mergeLoop, hn,
      ih (idx + 1) (cp + n) (fun q hq => hread q (List.mem_cons_of_mem _ hq))]

theorem mergeLoop_pageCounts_of_ok {lib : String → Option Nat} {folder : String}
    {ts : Option (List String)} :
    ∀ (plan : List (String × Int)) (idx cp : Nat),
      (∀ e ∈ plan, (lib (pathJoin folder e.1)).isSome) →
      (mergeLoop lib folder ts plan idx cp).pageCounts
        = plan.map (pageCount lib folder) := by
  intro plan
  induction plan with
  | nil => intro idx cp _; simp [mergeLoop]
  | cons e rest ih =>
    intro idx cp hread
    obtain ⟨f, k⟩ := e
    have h0 : (lib (pathJoin folder f)).isSome := hread (f, k) (by simp)
    rcases Option.isSome_iff_exists.mp h0 with ⟨n, hn⟩
    simp [mergeLoop, hn, pageCount,
      ih (idx + 1) (cp + n) (fun q hq => hread q (List.mem_cons_of_mem _ hq))]

theorem mergeLoop_bookmarks_length {lib : String → Option Nat} {folder : String}
    {ts : Option (List String)} :
    ∀ (plan : List (String × Int)) (idx cp : Nat),
      (∀ e ∈ plan, (lib (pathJoin folder e.1)).isSome) →
      (mergeLoop lib folder ts plan idx cp).bookmarks.length = plan.length := by
  intro plan
  induction plan with
  | nil => intro idx cp _; simp [mergeLoop]
  | cons e rest ih =>
    intro idx cp hread
    obtain ⟨f, k⟩ := e
    have h0 : (lib (pathJoin folder f)).isSome := hread (f, k) (by simp)
    rcases Option.isSome_iff_exists.mp h0 with ⟨n, hn⟩
    simp [mergeLoop, hn,
      ih (idx + 1) (cp + n) (fun q hq => hread q (List.mem_cons_of_mem _ hq))]

theorem mergeLoop_bookmark_get {lib : String → Option Nat} {folder : String}
    {ts : Option (List String)} :
    ∀ (plan : List (String × Int)) (idx cp i : Nat) (f : String) (k : Int),
      (∀ e ∈ plan, (lib (pathJoin folder e.1)).isSome) →
      plan.get? i = some (f, k) →
      (mergeLoop lib folder ts plan idx cp).bookmarks.get? i
        = some (resolveTitle ts (idx + i) f,
            cp + ((plan.take i).map (pageCount lib folder)).sum) := by
  intro plan
  induction plan with
  | nil => intro idx cp i f k _ hi; simp at hi
  | cons e rest ih =>
    intro idx cp i f k hread hi
    obtain ⟨f0, k0⟩ := e
    have h0 : (lib (pathJoin folder f0)).isSome := hread (f0, k0) (by simp)
    rcases Option.isSome_iff_exists.mp h0 with ⟨n, hn⟩
    cases i with
    | zero =>
      rw [List.get?_cons_zero] at hi
      cases hi
      simp [mergeLoop, hn]
    | succ i =>
      rw [List.get?_cons_succ] at hi
      have hrec := ih (idx + 1) (cp + n) i f k
        (fun q hq => hread q (List.mem_cons_of_mem _ hq)) hi
      have hpc : pageCount lib folder (f0, k0) = n := by simp [pageCount, hn]
      simp only [mergeLoop, hn, List.get?_cons_succ, List.take_succ_cons, List.map_cons,
        List.sum_cons, hpc]
      rw [hrec, show idx + 1 + i = idx + (i + 1) by omega, Nat.add_assoc]

theorem merge_pdfs_written_isSome_iff (lib : String → Option Nat)
    (folder out : String) (plan : List (String × Int)) (ts : Option (List String)) :
    (merge_pdfs lib folder out plan ts).written.isSome ↔
      ∀ e ∈ plan, (lib (pathJoin folder e.1)).isSome := by
  simp only [merge_pdfs]
  by_cases hok : (mergeLoop lib folder ts plan 0 0).ok = true
  · rw [if_pos hok]
    simp only [Option.isSome_some, true_iff]
    exact (mergeLoop_ok_iff plan 0 0).mp hok
  · rw [if_neg hok]
    simp only [Option.isSome_none, Bool.false_eq_true, false_iff]
    intro h
    exact hok ((mergeLoop_ok_iff plan 0 0).mpr h)

theorem merge_pdfs_bookmarks (lib : String → Option Nat) (folder out : String)
    (plan : List (String × Int)) (ts : Option (List String)) :
    (merge_pdfs lib folder out plan ts).bookmarks = (mergeLoop lib folder ts plan 0 0).bookmarks := by
  simp only [merge_pdfs]
  by_cases hok : (mergeLoop lib folder ts plan 0 0).ok = true
  · rw [if_pos hok]
  · rw [if_neg hok]

theorem resolveTitle_eq_spec (ts : Option (List String)) (i : Nat) (f : String) :
    resolveTitle ts i f = resolveTitleSpec ts i f := by
  cases ts with
  | none => rfl
  | some l =>
    simp only [resolveTitle, resolveTitleSpec]
    by_cases h : l ≠ [] ∧ i < l.length
    · rw [if_pos h, List.get?_eq_get h.2, List.getD_eq_getElem l "" h.2]
      rfl
    · rw [if_neg h]
      push_neg at h
      by_cases hl : l = []
      · subst hl; rfl
      · have hlen : l.length ≤ i := h hl
        rw [List.get?_eq_none.mpr hlen]

theorem digitRun_spec : ∀ (l r : List Char), digitRun l = some r →
    r ≠ [] ∧ ∀ c ∈ r, c.isDigit := by
  intro l
  induction l with
  | nil => intro r h; cases h
  | cons c cs ih =>
    intro r h
    by_cases hc : c.isDigit
    · rw [digitRun, if_pos hc] at h
      cases h
      refine ⟨by simp, ?_⟩
      intro d hd
      rcases List.mem_cons.mp hd with rfl | hd
      · exact hc
      · exact List.mem_takeWhile_imp hd
    · rw [digitRun, if_neg hc] at h
      exact ih r h

theorem pyInt_of_digits {l : List Char} (hne : l ≠ []) (hdig : ∀ c ∈ l, c.isDigit) :
    pyInt (String.mk l) = .ok ((parseDigits l : Nat) : Int) := by
  cases l with
  | nil => exact absurd rfl hne
  | cons c cs =>
    have hc : c.isDigit := hdig c (by simp)
    have hcm : ¬c = '-' := fun h => by rw [h] at hc; exact absurd hc (by decide)
    have hcp : ¬c = '+' := fun h => by rw [h] at hc; exact absurd hc (by decide)
    simp only [pyInt, hcm, hcp, if_neg, ite_false]
    rw [if_pos]
    simp only [List.all_eq_true]
    intro d hd
    exact hdig d hd

theorem default_extract_ok (filename pre : String) :
    ∃ v, extract_index_from_filename filename pre defaultPattern = .ok v := by
  simp only [extract_index_from_filename, defaultPattern]
  set s := if pyStartsWith filename pre then pyDrop filename pre.length else filename with hs
  cases hr : digitRun s.data with
  | none => exact ⟨none, by simp [hr]⟩
  | some r =>
    rcases digitRun_spec s.data r hr with ⟨hne, hdig⟩
    refine ⟨some ((parseDigits r : Nat) : Int), ?_⟩
    simp [hr, groupOneInt, pyInt_of_digits hne hdig, Except.map]

theorem collectIndices_ok {pre : String} {pat : RePattern} :
    ∀ {files : List String},
      (∀ f ∈ files, ∃ v, extract_index_from_filename f pre pat = .ok v) →
      ∃ r, collectIndices pre pat files = .ok r := by
  intro files
  induction files with
  | nil => intro _; exact ⟨([], []), rfl⟩
  | cons f fs ih =>
    intro h
    rcases h f (by simp) with ⟨v, hv⟩
    rcases ih (fun g hg => h g (by simp [hg])) with ⟨r0, hr0⟩
    cases v with
    | none => exact ⟨(r0.1, f :: r0.2), by simp [collectIndices, hv, hr0, Except.map]⟩
    | some i => exact ⟨((f, i) :: r0.1, r0.2), by simp [collectIndices, hv, hr0, Except.map]⟩

theorem merge_pdfs_of_not_ok {lib : String → Option Nat} {folder : String}
    {ts : Option (List String)} {plan : List (String × Int)} (out : String)
    (h : ¬(mergeLoop lib folder ts plan 0 0).ok = true) :
    (merge_pdfs lib folder out plan ts).written = none ∧
    (merge_pdfs lib folder out plan ts).trace = (mergeLoop lib folder ts plan 0 0).trace := by
  simp [merge_pdfs, h]

theorem merge_pdfs_of_ok {lib : String → Option Nat} {folder : String}
    {ts : Option (List String)} {plan : List (String × Int)} (out : String)
    (h : (mergeLoop lib folder ts plan 0 0).ok = true) :
    (merge_pdfs lib folder out plan ts).written = some (mergeLoop lib folder ts plan 0 0).pageCounts ∧
    (merge_pdfs lib folder out plan ts).trace
      = (mergeLoop lib folder ts plan 0 0).trace
          ++ [FsEvent.openOutput out, FsEvent.writeOutput out] := by
  simp [merge_pdfs, h]

end AssemblerLemmas

section Claims

/-- C1: for a merge plan of k files with page counts p1..pk, the bookmark
emitted for the i-th plan entry has page offset equal to the sum of
p1..p(i-1) (0 for i = 1): the running page counter is advanced after each
append by exactly the number of pages the library reports for the file
just appended. -/
theorem c1_bookmark_offsets (lib : String → Option Nat) (input_folder output_file : String)
    (sorted_pdfs : List (String × Int)) (custom_titles : Option (List String))
    (hread : ∀ e ∈ sorted_pdfs, (lib (pathJoin input_folder e.1)).isSome) :
    (merge_pdfs lib input_folder output_file sorted_pdfs custom_titles).bookmarks.length
        = sorted_pdfs.length ∧
    ∀ i f k, sorted_pdfs.get? i = some (f, k) →
      (((merge_pdfs lib input_folder output_file sorted_pdfs custom_titles).bookmarks.get?
          i).map Prod.snd)
        = some (((sorted_pdfs.take i).map (pageCount lib input_folder)).sum) := by
  rw [merge_pdfs_bookmarks]
  refine ⟨mergeLoop_bookmarks_length sorted_pdfs 0 0 hread, ?_⟩
  intro i f k hi
  rw [mergeLoop_bookmark_get sorted_pdfs 0 0 i f k hread hi]
  simp

/-- Witness for C1: in a concrete three-file plan with page counts 3, 5, 2
the bookmark of the third entry sits at page offset 3 + 5 = 8. -/
theorem c1_bookmark_offsets_witness :
    (((merge_pdfs libEx "in" "out.pdf" planEx none).bookmarks.get? 2).map Prod.snd)
      = some 8 := by
  have hread : ∀ e ∈ planEx, (libEx (pathJoin "in" e.1)).isSome = true := by decide
  have hi : planEx.get? 2 = some ("c.pdf", 3) := by decide
  have h := (c1_bookmark_offsets libEx "in" "out.pdf" planEx none hread).2 2 "c.pdf" 3 hi
  have hval : some (((planEx.take 2).map (pageCount libEx "in")).sum) = some 8 := by decide
  exact h.trans hval

/-- C2: if appending any plan file fails, the whole merge aborts and no
output file is created (the output path is never opened); when every entry
appends successfully, the output path is opened and written only after all
append events, as the final two events of the trace. -/
theorem c2_abort_no_output (lib : String → Option Nat) (input_folder output_file : String)
    (sorted_pdfs : List (String × Int)) (custom_titles : Option (List String)) :
    ((∃ e ∈ sorted_pdfs, lib (pathJoin input_folder e.1) = none) →
      (merge_pdfs lib input_folder output_file sorted_pdfs custom_titles).written = none ∧
      ∀ p, FsEvent.openOutput p
          ∉ (merge_pdfs lib input_folder output_file sorted_pdfs custom_titles).trace) ∧
    ((∀ e ∈ sorted_pdfs, (lib (pathJoin input_folder e.1)).isSome) →
      (merge_pdfs lib input_folder output_file sorted_pdfs custom_titles).trace
        = sorted_pdfs.map (fun e => FsEvent.append (pathJoin input_folder e.1))
            ++ [FsEvent.openOutput output_file, FsEvent.writeOutput output_file] ∧
      (merge_pdfs lib input_folder output_file sorted_pdfs custom_titles).written
        = some (sorted_pdfs.map (pageCount lib input_folder))) := by
  constructor
  · intro hex
    have hok : ¬(mergeLoop lib input_folder custom_titles sorted_pdfs 0 0).ok = true := by
      intro hok
      rcases hex with ⟨e, he, hnone⟩
      have hsome := (mergeLoop_ok_iff sorted_pdfs 0 0).mp hok e he
      rw [hnone] at hsome
      simp at hsome
    rcases merge_pdfs_of_not_ok output_file hok with ⟨hw, htr⟩
    refine ⟨hw, ?_⟩
    intro p hp
    rw [htr] at hp
    rcases mergeLoop_trace_append_only sorted_pdfs 0 0 _ hp with ⟨q, hq⟩
    cases hq
  · intro hread
    have hok : (mergeLoop lib input_folder custom_titles sorted_pdfs 0 0).ok = true :=
      (mergeLoop_ok_iff sorted_pdfs 0 0).mpr hread
    rcases merge_pdfs_of_ok output_file hok with ⟨hw, htr⟩
    refine ⟨?_, ?_⟩
    · rw [htr, mergeLoop_trace_of_ok sorted_pdfs 0 0 hread]
    · rw [hw, mergeLoop_pageCounts_of_ok sorted_pdfs 0 0 hread]

/-- Witness for C2: a plan containing the unreadable x.pdf yields no
written output and the output path is never opened. -/
theorem c2_abort_no_output_witness :
    (merge_pdfs libEx "in" "out.pdf" planFailEx none).written = none ∧
    FsEvent.openOutput "out.pdf"
      ∉ (merge_pdfs libEx "in" "out.pdf" planFailEx none).trace := by
  have hmem : ("x.pdf", (2 : Int)) ∈ planFailEx := by decide
  have hx : libEx (pathJoin "in" "x.pdf") = none := by decide
  have h := (c2_abort_no_output libEx "in" "out.pdf" planFailEx none).1
    ⟨("x.pdf", 2), hmem, hx⟩
  exact ⟨h.1, h.2 "out.pdf"⟩

/-- C9: the bookmark written for the plan entry at position i carries the
i-th custom title when a title list is supplied and i is in its range, and
otherwise the entry's filename with its extension stripped. -/
theorem c9_bookmark_titles (lib : String → Option Nat) (input_folder output_file : String)
    (sorted_pdfs : List (String × Int)) (custom_titles : Option (List String))
    (hread : ∀ e ∈ sorted_pdfs, (lib (pathJoin input_folder e.1)).isSome) :
    ∀ i f k, sorted_pdfs.get? i = some (f, k) →
      (merge_pdfs lib input_folder output_file sorted_pdfs custom_titles).bookmarks.get? i
        = some (resolveTitleSpec custom_titles i f,
            ((sorted_pdfs.take i).map (pageCount lib input_folder)).sum) := by
  intro i f k hi
  rw [merge_pdfs_bookmarks, mergeLoop_bookmark_get sorted_pdfs 0 0 i f k hread hi,
    resolveTitle_eq_spec]
  simp

/-- Witness for C9: with titles ["T1", "T2"] for a three-entry plan, the
third bookmark falls back to the filename stem "c". -/
theorem c9_bookmark_titles_witness :
    (merge_pdfs libEx "in" "out.pdf" planEx (some ["T1", "T2"])).bookmarks.get? 2
      = some ("c", 8) := by
  have hread : ∀ e ∈ planEx, (libEx (pathJoin "in" e.1)).isSome = true := by decide
  have hi : planEx.get? 2 = some ("c.pdf", 3) := by decide
  have h := c9_bookmark_titles libEx "in" "out.pdf" planEx (some ["T1", "T2"]) hread
    2 "c.pdf" 3 hi
  have hval :
      some (resolveTitleSpec (some ["T1", "T2"]) 2 "c.pdf",
        ((planEx.take 2).map (pageCount libEx "in")).sum) = some ("c", 8) := by decide
  exact h.trans hval

/-- C10: extraction is total for the default pattern (an integer or "no
key", never an exception), but for a zero-capture-group pattern that
matches the name, such as the literal pattern a on "a.pdf", the
`match.group(1)` call raises IndexError instead of returning "no key". -/
theorem c10_group_precondition :
    (∀ filename pre, ∃ v, extract_index_from_filename filename pre defaultPattern = .ok v) ∧
    extract_index_from_filename "a.pdf" "" matchA = .error .indexError := by
  exact ⟨default_extract_ok, by decide⟩

/-- C3: extraction removes exactly len(prefix) leading characters when the
filename starts with the prefix and otherwise matches the filename
unchanged; it returns the first capture group of the first pattern match
parsed as a base-10 integer, or "no key" (None) when the pattern matches
nowhere in the stripped name. -/
theorem c3_extraction_contract (filename pre s : String) (pat : RePattern)
    (m : ReMatch) (g : String) :
    (pyStartsWith filename pre = true →
      extract_index_from_filename filename pre pat
        = extract_index_from_filename (pyDrop filename pre.length) "" pat) ∧
    (pyStartsWith filename pre = false →
      extract_index_from_filename filename pre pat
        = extract_index_from_filename filename "" pat) ∧
    (pat.search s = none → extract_index_from_filename s "" pat = .ok none) ∧
    (pat.search s = some m → m.groups.get? 0 = some (some g) →
      g.data ≠ [] → (∀ c ∈ g.data, c.isDigit) →
      extract_index_from_filename s "" pat = .ok (some ((parseDigits g.data : Nat) : Int))) := by
  have hdrop : ∀ t : String, pyDrop t ("" : String).length = t := fun t => rfl
  have hempty : ∀ t : String, pyStartsWith t "" = true := fun t => by simp [pyStartsWith]
  refine ⟨?_, ?_, ?_, ?_⟩
  · intro h
    simp only [extract_index_from_filename, h, if_true, hempty, hdrop]
  · intro h
    simp only [extract_index_from_filename, h, Bool.false_eq_true, if_false, hempty, if_true,
      hdrop]
  · intro h
    simp only [extract_index_from_filename, hempty, if_true, hdrop, h]
  · intro hs hg hne hdig
    simp only [extract_index_from_filename, hempty, if_true, hdrop, hs, groupOneInt, hg]
    rw [show pyInt g = .ok ((parseDigits g.data : Nat) : Int) from pyInt_of_digits hne hdig]
    rfl

/-- Witness for C3: stripping the prefix doc_ from doc_10.pdf and running
the default pattern on the remainder extracts the key 10. -/
theorem c3_extraction_contract_witness :
    extract_index_from_filename "doc_10.pdf" "doc_" defaultPattern
        = extract_index_from_filename (pyDrop "doc_10.pdf" ("doc_" : String).length) ""
            defaultPattern ∧
    extract_index_from_filename "10.pdf" "" defaultPattern = .ok (some 10) := by
  have hsw : pyStartsWith "doc_10.pdf" "doc_" = true := by decide
  have h1 := (c3_extraction_contract "doc_10.pdf" "doc_" "" defaultPattern ⟨[]⟩ "").1 hsw
  have hsearch : defaultPattern.search "10.pdf" = some ⟨[some "10"]⟩ := by decide
  have hgroup : (ReMatch.mk [some "10"]).groups.get? 0 = some (some "10") := by decide
  have hne : ("10" : String).data ≠ [] := by decide
  have hdig : ∀ c ∈ ("10" : String).data, c.isDigit := by decide
  have h4 := (c3_extraction_contract "" "" "10.pdf" defaultPattern ⟨[some "10"]⟩ "10").2.2.2
    hsearch hgroup hne hdig
  have hval : (Except.ok (some ((parseDigits ("10" : String).data : Nat) : Int))
      : Except PyErr (Option Int)) = .ok (some 10) := by decide
  exact ⟨h1, h4.trans hval⟩

/-- C4 as stated fails on a listing with a duplicated filename: both
entries match the default pattern, yet the `pdf_with_indices` dict
collapses them into one key, so the plan has length 1, not the input
count 2. -/
theorem c4_counterexample :
    extract_index_from_filename "doc_1.pdf" "doc_" defaultPattern = .ok (some 1) ∧
    get_sorted_pdfs_by_index ["doc_1.pdf", "doc_1.pdf"] "doc_" defaultPattern
      = .ok ([("doc_1.pdf", 1)], []) := by decide

/-- C4 amended: for listings of pairwise distinct filenames in which every
filename matches the default pattern, the plan has length equal to the
input count and its keys are non-decreasing; the scenario doc_2.pdf,
doc_10.pdf, doc_1.pdf with prefix doc_ yields doc_1.pdf(1), doc_2.pdf(2),
doc_10.pdf(10). -/
theorem c4_plan_length_and_order (files : List String) (pre : String)
    (plan : List (String × Int)) (ws : List String)
    (hnd : files.Nodup)
    (hmatch : ∀ f ∈ files, ∃ k, extract_index_from_filename f pre defaultPattern = .ok (some k))
    (hplan : get_sorted_pdfs_by_index files pre defaultPattern = .ok (plan, ws)) :
    plan.length = files.length ∧ plan.Pairwise (fun a b => a.2 ≤ b.2) ∧
    get_sorted_pdfs_by_index ["doc_2.pdf", "doc_10.pdf", "doc_1.pdf"] "doc_" defaultPattern
      = .ok ([("doc_1.pdf", 1), ("doc_2.pdf", 2), ("doc_10.pdf", 10)], []) := by
  rw [get_sorted_pdfs_by_index] at hplan
  cases hc : collectIndices pre defaultPattern files with
  | error e => rw [hc] at hplan; cases hplan
  | ok r =>
    rw [hc] at hplan
    simp only [Except.map, Except.ok.injEq, Prod.mk.injEq] at hplan
    obtain ⟨hp, hw⟩ := hplan
    have hkey : r.1 = keyedPairs pre defaultPattern files := (collectIndices_eq hc).1
    have hfst : r.1.map Prod.fst = files := by
      rw [hkey]; exact keyedPairs_fst_of_all hmatch
    have hndk : (r.1.map Prod.fst).Nodup := by rw [hfst]; exact hnd
    have hdict : pyDict r.1 = r.1 := pyDict_eq_self hndk
    refine ⟨?_, ?_, by decide⟩
    · rw [← hp, hdict, (sortByKey_perm r.1).length_eq, ← List.length_map r.1 Prod.fst, hfst]
    · rw [← hp]
      exact sortByKey_pairwise _

/-- Witness for C4 (amended): the scenario plan has the same length as its
three-file listing. -/
theorem c4_plan_length_and_order_witness :
    ([("doc_1.pdf", (1 : Int)), ("doc_2.pdf", 2), ("doc_10.pdf", 10)]).length
      = (["doc_2.pdf", "doc_10.pdf", "doc_1.pdf"] : List String).length := by
  have hnd : (["doc_2.pdf", "doc_10.pdf", "doc_1.pdf"] : List String).Nodup := by decide
  have hmatch : ∀ f ∈ (["doc_2.pdf", "doc_10.pdf", "doc_1.pdf"] : List String),
      ∃ k, extract_index_from_filename f "doc_" defaultPattern = .ok (some k) := by
    intro f hf
    fin_cases hf
    · exact ⟨2, by decide⟩
    · exact ⟨10, by decide⟩
    · exact ⟨1, by decide⟩
  have hplan : get_sorted_pdfs_by_index ["doc_2.pdf", "doc_10.pdf", "doc_1.pdf"] "doc_"
      defaultPattern
      = .ok ([("doc_1.pdf", 1), ("doc_2.pdf", 2), ("doc_10.pdf", 10)], []) := by decide
  exact (c4_plan_length_and_order _ "doc_" _ _ hnd hmatch hplan).1

/-- C5: a file whose name yields no key is excluded from the plan and
recorded in the warning list, never assigned a default key; and when the
index strategy yields an empty plan on a nonempty listing, main stops with
the no-valid-entries outcome and no merge activity. -/
theorem c5_skip_and_no_valid_entries (files : List String) (pre : String) (pat : RePattern)
    (plan : List (String × Int)) (ws : List String)
    (lib : String → Option Nat) (input_folder output_file : String)
    (custom_titles : Option (List String)) (force_merge userConfirms : Bool)
    (hplan : get_sorted_pdfs_by_index files pre pat = .ok (plan, ws)) :
    (∀ f ∈ files, extract_index_from_filename f pre pat = .ok none →
      f ∉ plan.map Prod.fst ∧ f ∈ ws) ∧
    (files ≠ [] → plan = [] →
      pyMain lib input_folder output_file files pre pat custom_titles none
          force_merge userConfirms
        = ⟨.ok .noValidEntries, []⟩) := by
  have hplan0 := hplan
  rw [get_sorted_pdfs_by_index] at hplan0
  cases hc : collectIndices pre pat files with
  | error e => rw [hc] at hplan0; cases hplan0
  | ok r =>
    rw [hc] at hplan0
    simp only [Except.map, Except.ok.injEq, Prod.mk.injEq] at hplan0
    obtain ⟨hp, hw⟩ := hplan0
    have hkey : r.1 = keyedPairs pre pat files := (collectIndices_eq hc).1
    have hwarn := (collectIndices_eq hc).2
    constructor
    · intro f hf hnone
      constructor
      · intro hmem
        rw [← hp] at hmem
        rcases List.mem_map.mp hmem with ⟨q, hq, hq1⟩
        have hqd : q ∈ pyDict r.1 := (sortByKey_perm (pyDict r.1)).mem_iff.mp hq
        have hfd : f ∈ (pyDict r.1).map Prod.fst := List.mem_map.mpr ⟨q, hqd, hq1⟩
        have hfk : f ∈ r.1.map Prod.fst := pyDict_fst_subset hfd
        rcases List.mem_map.mp hfk with ⟨q2, hq2, hq21⟩
        have : (f, q2.2) ∈ keyedPairs pre pat files := by
          rw [← hkey, ← hq21]
          simpa using hq2
        have := (keyedPairs_mem this).1
        rw [hnone] at this
        cases this
      · rw [← hw, hwarn]
        refine List.mem_filter.mpr ⟨hf, ?_⟩
        rw [hnone]
        rfl
    · intro hne hpl
      have hemp : files.isEmpty = false := by
        cases files with
        | nil => exact absurd rfl hne
        | cons f0 fs => rfl
      rw [hpl] at hplan
      simp [pyMain, hemp, hplan, Except.map]

/-- Witness for C5: nokey.pdf has no digits, so it lands in the warning
list and not in the plan. -/
theorem c5_skip_and_no_valid_entries_witness :
    "nokey.pdf" ∉ ([("doc_1.pdf", (1 : Int))]).map Prod.fst ∧
    "nokey.pdf" ∈ ["nokey.pdf"] := by
  have hplan : get_sorted_pdfs_by_index ["doc_1.pdf", "nokey.pdf"] "doc_" defaultPattern
      = .ok ([("doc_1.pdf", 1)], ["nokey.pdf"]) := by decide
  have hf : "nokey.pdf" ∈ ["doc_1.pdf", "nokey.pdf"] := by decide
  have hnone : extract_index_from_filename "nokey.pdf" "doc_" defaultPattern
      = .ok none := by decide
  exact (c5_skip_and_no_valid_entries ["doc_1.pdf", "nokey.pdf"] "doc_" defaultPattern
      [("doc_1.pdf", 1)] ["nokey.pdf"] libEx "in" "out.pdf" none true true hplan).1
    "nokey.pdf" hf hnone

/-- C6: explicit-strategy planning raises the order-count ValueError
exactly when the order list length differs from the file count, and on
that failure main propagates the error with an empty filesystem trace, so
no output file is produced. -/
theorem c6_order_count_mismatch (files : List String) (ord : List Int)
    (lib : String → Option Nat) (input_folder output_file : String) (pre : String)
    (pat : RePattern) (custom_titles : Option (List String))
    (force_merge userConfirms : Bool) :
    (get_sorted_pdfs_by_order files ord = .error (.valueError orderCountMismatchMsg)
      ↔ files.length ≠ ord.length) ∧
    (files ≠ [] → files.length ≠ ord.length →
      pyMain lib input_folder output_file files pre pat custom_titles (some ord)
          force_merge userConfirms
        = ⟨.error (.valueError orderCountMismatchMsg), []⟩) := by
  constructor
  · constructor
    · intro h heq
      rw [get_sorted_pdfs_by_order, if_neg (not_not_intro heq)] at h
      cases h
    · intro hne
      rw [get_sorted_pdfs_by_order, if_pos hne]
  · intro hfne hlen
    have hemp : files.isEmpty = false := by
      cases files with
      | nil => exact absurd rfl hfne
      | cons f0 fs => rfl
    simp [pyMain, hemp, get_sorted_pdfs_by_order, hlen]

/-- Witness for C6: an order list of length 2 for 3 files makes main fail
with the mismatch ValueError and no filesystem activity. -/
theorem c6_order_count_mismatch_witness :
    pyMain libEx "in" "out.pdf" ["f1.pdf", "f2.pdf", "f3.pdf"] "" defaultPattern none
        (some [1, 2]) true true
      = ⟨.error (.valueError orderCountMismatchMsg), []⟩ := by
  have hne : (["f1.pdf", "f2.pdf", "f3.pdf"] : List String) ≠ [] := by decide
  have hlen : (["f1.pdf", "f2.pdf", "f3.pdf"] : List String).length
      ≠ ([1, 2] : List Int).length := by decide
  exact (c6_order_count_mismatch ["f1.pdf", "f2.pdf", "f3.pdf"] [1, 2] libEx "in" "out.pdf"
      "" defaultPattern none true true).2 hne hlen

/-- C7 as stated fails on a listing with a duplicated filename: order
values 1 and 2 for the twice-listed a.pdf collapse into one dict entry, so
the plan is not a permutation of the two inputs. -/
theorem c7_counterexample :
    get_sorted_pdfs_by_order ["a.pdf", "a.pdf"] [1, 2] = .ok [("a.pdf", 2)] ∧
    ¬List.Perm (([("a.pdf", (2 : Int))]).map Prod.fst) ["a.pdf", "a.pdf"] :=
  ⟨by decide, fun h => by simpa using h.length_eq⟩

/-- C7 amended: for listings of pairwise distinct filenames with an
equal-length order list, the plan is a permutation of the files paired
with their order values, sorted ascending by value; and whenever the
explicit strategy is requested, the prefix and pattern are never
consulted. -/
theorem c7_explicit_strategy (files : List String) (ord : List Int)
    (plan : List (String × Int)) (hnd : files.Nodup) (hlen : files.length = ord.length)
    (hplan : get_sorted_pdfs_by_order files ord = .ok plan) :
    List.Perm plan (files.zip ord) ∧
    List.Perm (plan.map Prod.fst) files ∧
    plan.Pairwise (fun a b => a.2 ≤ b.2) ∧
    ∀ (lib : String → Option Nat) (input_folder output_file : String)
      (pre1 pre2 : String) (pat1 pat2 : RePattern) (custom_titles : Option (List String))
      (force_merge userConfirms : Bool),
      pyMain lib input_folder output_file files pre1 pat1 custom_titles (some ord)
          force_merge userConfirms
        = pyMain lib input_folder output_file files pre2 pat2 custom_titles (some ord)
            force_merge userConfirms := by
  rw [get_sorted_pdfs_by_order, if_neg (fun h => h hlen)] at hplan
  have hzf : (files.zip ord).map Prod.fst = files := List.map_fst_zip files ord (le_of_eq hlen)
  have hndz : ((files.zip ord).map Prod.fst).Nodup := by rw [hzf]; exact hnd
  have hdict : pyDict (files.zip ord) = files.zip ord := pyDict_eq_self hndz
  rw [hdict] at hplan
  cases hplan
  refine ⟨sortByKey_perm _, ?_, sortByKey_pairwise _, ?_⟩
  · have hperm := (sortByKey_perm (files.zip ord)).map Prod.fst
    rw [hzf] at hperm
    exact hperm
  · intro lib input_folder output_file pre1 pre2 pat1 pat2 custom_titles force_merge userConfirms
    rfl

/-- Witness for C7 (amended): explicit order 3, 1, 2 on three files yields
the plan file2(1), file3(2), file1(3), a permutation of the zipped
listing. -/
theorem c7_explicit_strategy_witness :
    List.Perm ([("f2.pdf", (1 : Int)), ("f3.pdf", 2), ("f1.pdf", 3)])
      ((["f1.pdf", "f2.pdf", "f3.pdf"] : List String).zip [3, 1, 2]) := by
  have hnd : (["f1.pdf", "f2.pdf", "f3.pdf"] : List String).Nodup := by decide
  have hlen : (["f1.pdf", "f2.pdf", "f3.pdf"] : List String).length
      = ([3, 1, 2] : List Int).length := by decide
  have hplan : get_sorted_pdfs_by_order ["f1.pdf", "f2.pdf", "f3.pdf"] [3, 1, 2]
      = .ok [("f2.pdf", 1), ("f3.pdf", 2), ("f1.pdf", 3)] := by decide
  exact (c7_explicit_strategy _ _ _ hnd hlen hplan).1

/-- C8: in both strategies, plan entries with equal keys keep their
relative listing order: filtering the plan to any key value yields exactly
the listing-order keyed pairs carrying that value. -/
theorem c8_stable_ties (files : List String) (pre : String) (pat : RePattern)
    (plan : List (String × Int)) (ws : List String) (ord : List Int)
    (plan2 : List (String × Int)) (hnd : files.Nodup)
    (h1 : get_sorted_pdfs_by_index files pre pat = .ok (plan, ws))
    (hlen : files.length = ord.length)
    (h2 : get_sorted_pdfs_by_order files ord = .ok plan2) :
    (∀ k : Int, plan.filter (fun q => q.2 == k)
        = (keyedPairs pre pat files).filter (fun q => q.2 == k)) ∧
    (∀ k : Int, plan2.filter (fun q => q.2 == k)
        = (files.zip ord).filter (fun q => q.2 == k)) := by
  constructor
  · rw [get_sorted_pdfs_by_index] at h1
    cases hc : collectIndices pre pat files with
    | error e => rw [hc] at h1; cases h1
    | ok r =>
      rw [hc] at h1
      simp only [Except.map, Except.ok.injEq, Prod.mk.injEq] at h1
      obtain ⟨hp, hw⟩ := h1
      have hkey : r.1 = keyedPairs pre pat files := (collectIndices_eq hc).1
      have hndk : (r.1.map Prod.fst).Nodup := by
        rw [hkey]
        exact hnd.sublist (keyedPairs_fst_sublist pre pat files)
      intro k
      rw [← hp, pyDict_eq_self hndk, hkey, sortByKey_filter]
  · rw [get_sorted_pdfs_by_order, if_neg (fun h => h hlen)] at h2
    have hndz : ((files.zip ord).map Prod.fst).Nodup := by
      rw [List.map_fst_zip files ord (le_of_eq hlen)]
      exact hnd
    intro k
    rw [← Except.ok.injEq .. |>.mp h2, pyDict_eq_self hndz, sortByKey_filter]

/-- Witness for C8: order values 2, 1, 1 on three distinct files give the
tied entries f2, f3 in listing order, matching the zipped listing filter.
-/
theorem c8_stable_ties_witness :
    ([("f2.pdf", (1 : Int)), ("f3.pdf", 1), ("f1.pdf", 2)]).filter (fun q => q.2 == (1 : Int))
      = ((["f1.pdf", "f2.pdf", "f3.pdf"] : List String).zip [2, 1, 1]).filter
          (fun q => q.2 == (1 : Int)) := by
  have hnd : (["f1.pdf", "f2.pdf", "f3.pdf"] : List String).Nodup := by decide
  have h1 : get_sorted_pdfs_by_index ["f1.pdf", "f2.pdf", "f3.pdf"] "" defaultPattern
      = .ok ([("f1.pdf", 1), ("f2.pdf", 2), ("f3.pdf", 3)], []) := by decide
  have hlen : (["f1.pdf", "f2.pdf", "f3.pdf"] : List String).length
      = ([2, 1, 1] : List Int).length := by decide
  have h2 : get_sorted_pdfs_by_order ["f1.pdf", "f2.pdf", "f3.pdf"] [2, 1, 1]
      = .ok [("f2.pdf", 1), ("f3.pdf", 1), ("f1.pdf", 2)] := by decide
  exact (c8_stable_ties ["f1.pdf", "f2.pdf", "f3.pdf"] "" defaultPattern
      [("f1.pdf", 1), ("f2.pdf", 2), ("f3.pdf", 3)] [] [2, 1, 1]
      [("f2.pdf", 1), ("f3.pdf", 1), ("f1.pdf", 2)] hnd h1 hlen h2).2 1

end Claims
